import Mathlib

/-!
Verification of the live-db-editor core: statement splitting, statement
classification, identifier validation, type coercion, the generic CRUD
handlers, batch execution, and result projection, shallowly embedded from
`src/server.js`, `src/frontend/src/EditableTable.jsx` and the query
executor component.

JavaScript strings are modelled as Lean `String`/`List Char`; JavaScript
numbers as `ℚ` (exact; IEEE rounding is out of scope and irrelevant to the
claims settled here); BigInt as `ℤ`; a JSON value as the inductive `Value`.
Fallible handlers return `Except String` paired with the resulting
database state where the claim needs the state.
-/

namespace LiveDbEditor

/-- A JSON-serializable value as handled by the server and frontend.
`bigint` is Prisma's 64-bit integer representation, distinct from an
ordinary JS number (`num`). -/
inductive Value where
  | null : Value
  | bool (b : Bool) : Value
  | num (q : ℚ) : Value
  | str (s : String) : Value
  | bigint (n : ℤ) : Value
deriving DecidableEq, Repr

/-- A database/JSON row: an association list of column name to value,
in the object's entry order. -/
abbrev Row := List (String × Value)

/-- The whitespace characters recognized by `String.prototype.trim` and
skipped by `parseFloat` (space, tab, line feed, carriage return,
vertical tab, form feed; the exotic Unicode space separators are outside
the model). -/
def jsWhitespace (c : Char) : Bool :=
  c = ' ' || c = '\t' || c = '\n' || c = '\r' || c = '\x0b' || c = '\x0c'

/-- JavaScript `String.prototype.trim`: strip whitespace from both
ends. -/
def jsTrim (s : String) : String :=
  String.mk (((s.data.dropWhile jsWhitespace).reverse.dropWhile jsWhitespace).reverse)

/-- JavaScript `String.prototype.toUpperCase` on the ASCII range. -/
def jsToUpper (s : String) : String :=
  String.mk (s.data.map Char.toUpper)

/-- JavaScript `String.prototype.toLowerCase` on the ASCII range. -/
def jsToLower (s : String) : String :=
  String.mk (s.data.map Char.toLower)

/-- JavaScript `String.prototype.startsWith`. -/
def jsStartsWith (s k : String) : Bool :=
  k.data.isPrefixOf s.data

/-! ### IdentifierGuard: `sanitizeTableName` / `sanitizeColumnName`
(src/server.js lines 30–46) -/

/-- One character of the character class `[a-zA-Z0-9_]` used by the
sanitizer regexes in server.js. -/
def isWordChar (c : Char) : Bool :=
  ('a' ≤ c && c ≤ 'z') || ('A' ≤ c && c ≤ 'Z') || ('0' ≤ c && c ≤ '9') || c = '_'

/-- `/^[a-zA-Z0-9_]+$/.test(s)`: the whole string is one or more word
characters (JS `$` without the `m` flag anchors at the very end of the
input, so this is a full match). -/
def identRegexTest (s : String) : Bool :=
  !s.data.isEmpty && s.data.all isWordChar

/-- `sanitizeTableName` from src/server.js: throws unless the name passes
the format regex, otherwise returns it unchanged. -/
def sanitizeTableName (tableName : String) : Except String String :=
  if identRegexTest tableName then .ok tableName
  else .error ("Invalid table name format: " ++ tableName)

/-- `sanitizeColumnName` from src/server.js. -/
def sanitizeColumnName (columnName : String) : Except String String :=
  if identRegexTest columnName then .ok columnName
  else .error ("Invalid column name: " ++ columnName)

/-- `getPrimaryKey` from src/server.js: the primary-key name is the
hardcoded string `"ID"` for every table. -/
def getPrimaryKey (_tableName : String) : String := "ID"

/-! ### StatementSplitter: `splitQueries` (QueryExecutor component)

The source splits with `sql.split(/;(?=(?:(?:[^']){2})*[^']*$)/)`.
The lookahead body `(?:(?:[^']){2})*[^']*$` matches a (possibly empty)
even-length run of non-quote characters followed by any run of non-quote
characters, anchored at the end of input — i.e. it matches exactly when
every character from the current position to the end of the string is
different from `'`.  So the regex splits at a `;` precisely when no
single-quote character occurs anywhere after that `;`. -/

/-- Does this character suffix contain no single-quote?  This is the
regex lookahead's acceptance condition. -/
def noQuoteAfter (l : List Char) : Bool :=
  l.all (fun c => c ≠ '\'')

/-- Core of `String.prototype.split` with the lookahead regex: walk the
characters, closing a segment at each `;` whose entire remainder is
quote-free (JS split keeps a final empty piece after a trailing
separator, reproduced by the `[acc.reverse]` base case). -/
def splitSegs : List Char → List Char → List (List Char)
  | acc, [] => [acc.reverse]
  | acc, c :: rest =>
    if c = ';' && noQuoteAfter rest then
      acc.reverse :: splitSegs [] rest
    else
      splitSegs (c :: acc) rest

/-- `splitQueries` from the QueryExecutor component: empty or
whitespace-only input yields `[]`; otherwise split as above, trim each
piece, and drop the pieces that are empty after trimming. -/
def splitQueries (sql : String) : List String :=
  if jsTrim sql = "" then []
  else
    ((splitSegs [] sql.data).map (fun l => jsTrim (String.mk l))).filter
      (fun s => s.length > 0)

/-! ### StatementClassifier: the `isExecute` check of POST /api/query
(src/server.js lines 203–210) -/

/-- The leading keywords the server treats as mutating (DDL/DML). -/
def mutatingKeywords : List String :=
  ["CREATE", "ALTER", "DROP", "INSERT", "UPDATE", "DELETE", "TRUNCATE"]

/-- `isExecute` from src/server.js: trim, uppercase, and test the seven
`startsWith` alternatives exactly as the source chains them with `||`. -/
def isExecute (query : String) : Bool :=
  let upperQuery := jsToUpper (jsTrim query)
  jsStartsWith upperQuery "CREATE" ||
  jsStartsWith upperQuery "ALTER" ||
  jsStartsWith upperQuery "DROP" ||
  jsStartsWith upperQuery "INSERT" ||
  jsStartsWith upperQuery "UPDATE" ||
  jsStartsWith upperQuery "DELETE" ||
  jsStartsWith upperQuery "TRUNCATE"

/-- The classification tag of a statement. -/
inductive Classification where
  | QUERY : Classification
  | MUTATING : Classification
deriving DecidableEq, Repr

/-- The route's branch choice: `$executeRawUnsafe` (MUTATING) when
`isExecute`, `$queryRawUnsafe` (QUERY) otherwise. -/
def classify (query : String) : Classification :=
  if isExecute query then .MUTATING else .QUERY

/-! ### TypeCoercer: `safeTypeConvert` (EditableTable.jsx lines 12–40) -/

/-- JavaScript `String.prototype.includes`: substring test, used by the
source's `columnType.includes(...)` family checks. -/
def strIncludes (s sub : String) : Bool :=
  s.data.tails.any (fun t => sub.data.isPrefixOf t)

/-- Value of a digit run, most significant first. -/
def digitsToNat (ds : List Char) : ℕ :=
  ds.foldl (fun a c => 10 * a + (c.toNat - 48)) 0

/-- The optional signed digit run of a `parseFloat` exponent; a sign with
no digits after it is not a valid exponent part, so it contributes 0
(the longest valid prefix stops before the `e`). -/
def parseSignedExp (l : List Char) : ℤ :=
  match l with
  | '-' :: r =>
    let d := r.takeWhile Char.isDigit
    if d.isEmpty then 0 else -(digitsToNat d : ℤ)
  | '+' :: r =>
    let d := r.takeWhile Char.isDigit
    if d.isEmpty then 0 else (digitsToNat d : ℤ)
  | r =>
    let d := r.takeWhile Char.isDigit
    if d.isEmpty then 0 else (digitsToNat d : ℤ)

/-- The exponent of a `parseFloat` mantissa remainder: `e`/`E` followed
by an optionally signed digit run, else 0. -/
def parseExponent (l : List Char) : ℤ :=
  match l with
  | 'e' :: rest => parseSignedExp rest
  | 'E' :: rest => parseSignedExp rest
  | _ => 0

/-- Model of the ECMAScript `parseFloat` builtin as the source uses it:
`some q` when the longest numeric prefix denotes the finite number `q`
(exact, as a rational), `none` when the result is `NaN` or `±Infinity` —
the source immediately collapses both to `null` through its
`!isNaN(x) && isFinite(x)` guard, so non-finite results need no separate
representative. -/
def jsParseFloat (s : String) : Option ℚ :=
  let l0 := s.data.dropWhile jsWhitespace
  let sl : ℤ × List Char :=
    match l0 with
    | '-' :: r => (-1, r)
    | '+' :: r => (1, r)
    | _ => (1, l0)
  if sl.2.take 8 = "Infinity".data then none
  else
    let ip := sl.2.takeWhile Char.isDigit
    let r1 := sl.2.dropWhile Char.isDigit
    let fr : List Char × List Char :=
      match r1 with
      | '.' :: r => (r.takeWhile Char.isDigit, r.dropWhile Char.isDigit)
      | _ => ([], r1)
    if ip.isEmpty && fr.1.isEmpty then none
    else
      let mant : ℕ := digitsToNat ip * 10 ^ fr.1.length + digitsToNat fr.1
      let e : ℤ := parseExponent fr.2
      if 0 ≤ e then
        some (mkRat (sl.1 * ((mant * 10 ^ e.toNat : ℕ) : ℤ)) (10 ^ fr.1.length))
      else
        some (mkRat (sl.1 * (mant : ℤ)) (10 ^ fr.1.length * 10 ^ (-e).toNat))

/-- Decimal digit count, with the value itself as structural fuel (the
recursion divides by 10, so the fuel is never exhausted for positive
input; only about log₁₀ n steps ever run). -/
def numDigitsAux : ℕ → ℕ → ℕ
  | 0, _ => 1
  | fuel + 1, n => if n < 10 then 1 else numDigitsAux fuel (n / 10) + 1

/-- Number of decimal digits of `n` (1 for 0–9). -/
def numDigits (n : ℕ) : ℕ := numDigitsAux n n

/-- Leading decimal digit of the positive rational `p / d` (`p` the
numerator's absolute value, `d` the denominator): the integer part's
first digit when `p / d ≥ 1`, else the first nonzero digit after the
leading zeros of the fractional expansion. -/
def leadingDigit (p d : ℕ) : ℕ :=
  if d ≤ p then
    let m := p / d
    m / 10 ^ (numDigits m - 1)
  else
    let t := d / p
    let k := if d ≤ p * 10 ^ (numDigits t - 1) then numDigits t - 1 else numDigits t
    p * 10 ^ k / d

/-- Model of `parseInt(x, 10)` applied to a finite number `x`, including
the number-to-string round-trip: `parseInt` first converts its argument
with ECMAScript `String(x)`.  When `x` is zero or `10^-6 ≤ |x| < 10^21`
that string is plain decimal notation and `parseInt` reads the integer
part, truncating toward zero (`Int.tdiv`).  Outside that range
`String(x)` uses exponential notation `d.ddd…e±k`, where `parseInt`
stops at the decimal point or exponent marker and returns just the
signed leading digit. -/
def jsParseIntOfNumber (q : ℚ) : ℤ :=
  if q = 0 then 0
  else if q.den ≤ q.num.natAbs * 10 ^ 6 ∧ q.num.natAbs < q.den * 10 ^ 21 then
    q.num.tdiv (q.den : ℤ)
  else
    Int.sign q.num * (leadingDigit q.num.natAbs q.den : ℤ)

/-- `safeTypeConvert` from EditableTable.jsx. The cell value reaching it
is a string (or `null`, modelled as `none`): `handleSaveNewRows` passes
`String(...)` and `handleSaveCell` passes the cell's `innerText`. -/
def safeTypeConvert (value : Option String) (columnType : String) : Value :=
  match value with
  | none => .null
  | some v =>
    if v = "" || jsToLower v = "null" then .null
    else if strIncludes columnType "Boolean" then
      let lowerValue := jsToLower v
      if lowerValue = "true" || lowerValue = "1" || lowerValue = "t" || lowerValue = "yes" then
        .bool true
      else if lowerValue = "false" || lowerValue = "0" || lowerValue = "f" || lowerValue = "no" then
        .bool false
      else
        .bool true
    else if strIncludes columnType "Int" || strIncludes columnType "Float" ||
        strIncludes columnType "Decimal" then
      match jsParseFloat v with
      | none => .null
      | some q =>
        if strIncludes columnType "Int" then .num ((jsParseIntOfNumber q : ℤ) : ℚ) else .num q
    else .str v

/-! ### RowRepository: the generic CRUD handlers (src/server.js)

The database table is modelled as a list of rows and the engine's
`UPDATE … WHERE`, `DELETE … WHERE` and `RETURNING *` semantics as the
corresponding list operations.  Each handler returns the table state
after the request together with the response payload, so that "no row
was modified" is expressible. -/

/-- An introspected column descriptor, as produced from
`PRAGMA table_info` in GET /api/data: field name, declared type, and the
primary-key flag. -/
structure Column where
  field : String
  type : String
  pk : Bool
deriving DecidableEq, Repr

/-- Value of a row's column, if present. -/
def getCol (r : Row) (c : String) : Option Value :=
  (r.find? (fun kv => kv.1 = c)).map (fun kv => kv.2)

/-- `SET c = v` on one row: every entry named `c` gets the new value,
the other entries are untouched. -/
def setCol (r : Row) (c : String) (v : Value) : Row :=
  r.map (fun kv => if kv.1 = c then (kv.1, v) else kv)

/-- Does the engine's `WHERE pkName = ?` match this row for the bound
integer `id`?  Stored integers may surface as Prisma `bigint` or as
plain numbers. -/
def pkMatches (r : Row) (pkName : String) (id : ℤ) : Bool :=
  match getCol r pkName with
  | some (.num q) => q = (id : ℚ)
  | some (.bigint n) => n = id
  | _ => false

/-- PUT /api/data/:tableName/:id (src/server.js lines 148–171): sanitize
the table name, take `Object.entries(updateData)[0]` — destructuring the
first entry throws a TypeError when the body is empty, before any SQL
runs — sanitize that column name, issue
`UPDATE tab SET col = ? WHERE ID = ? RETURNING *`, and respond with
`updatedRow[0] || {}` (an empty object when no row matched).  The URL id
arrives already through `parseInt`; the body is the JSON object's entry
list in `Object.entries` order. -/
def putHandler (tableName : String) (table : List Row) (id : ℤ)
    (updateData : List (String × Value)) : List Row × Except String Row :=
  match sanitizeTableName tableName with
  | .error e => (table, .error e)
  | .ok t =>
    let pkName := getPrimaryKey t
    match updateData with
    | [] => (table, .error "Failed to update cell: updateData has no entries")
    | (key, value) :: _ =>
      match sanitizeColumnName key with
      | .error e => (table, .error e)
      | .ok columnName =>
        let newTable :=
          table.map (fun r => if pkMatches r pkName id then setCol r columnName value else r)
        let returned := newTable.filter (fun r => pkMatches r pkName id)
        (newTable, .ok (returned.headD []))

/-- DELETE /api/data/:tableName/:id (src/server.js lines 174–191):
sanitize the table name, issue `DELETE FROM tab WHERE ID = ?`, ignore
the affected count, and respond 204 unconditionally. -/
def deleteHandler (tableName : String) (table : List Row) (id : ℤ) :
    List Row × Except String Unit :=
  match sanitizeTableName tableName with
  | .error e => (table, .error e)
  | .ok t =>
    let pkName := getPrimaryKey t
    (table.filter (fun r => !(pkMatches r pkName id)), .ok ())

/-- The per-key loop of POST /api/data: sanitize each column name (the
first invalid one throws) and collect the column list and the value list
passed as bound parameters. -/
def insertLoop : List (String × Value) → Except String (List String × List Value)
  | [] => .ok ([], [])
  | (key, v) :: rest =>
    match sanitizeColumnName key with
    | .error e => .error e
    | .ok c =>
      match insertLoop rest with
      | .error e => .error e
      | .ok (cs, vs) => .ok (c :: cs, v :: vs)

/-- POST /api/data/:tableName (src/server.js lines 110–145): sanitize
the table name, `delete newData[getPrimaryKey(tableName)]` — removing
exactly the property named `"ID"` — then build the column list and the
bound-parameter value list for
`INSERT INTO tab (cols) VALUES (?…) RETURNING *`.  The result is the
insert payload the engine receives; no schema lookup and no value
coercion happens in this handler. -/
def postHandler (tableName : String) (newData : List (String × Value)) :
    Except String (List String × List Value) :=
  match sanitizeTableName tableName with
  | .error e => .error e
  | .ok t =>
    insertLoop (newData.filter (fun kv => kv.1 ≠ getPrimaryKey t))

/-! ### BatchExecutor: `handleExecuteQuery` (QueryExecutor component) -/

/-- One statement's server response: `{rowCount}` from the mutation
branch or `{rows, columns}` from the query branch of POST /api/query. -/
inductive QueryData where
  | rowCount (n : ℕ) : QueryData
  | rows (rows : List Row) (columns : List String) : QueryData
deriving DecidableEq, Repr

/-- State the executor loop accumulates: which statements were sent,
`totalRowCount`, the last successful statement with its data, and the
failure (statement text, error message) when one occurred. -/
structure BatchOutcome where
  executed : List String
  totalRowCount : ℕ
  lastResult : Option (String × QueryData)
  failure : Option (String × String)
deriving DecidableEq, Repr

/-- The contribution of one response to `totalRowCount`: the loop adds
`data.rowCount` when it is present and nothing for a row set. -/
def affectedOf : QueryData → ℕ
  | .rowCount n => n
  | .rows _ _ => 0

/-- What a given statement contributes to the aggregate under a given
executor: its `rowCount` on success, 0 otherwise. -/
def execAffected (exec : String → Except String QueryData) (s : String) : ℕ :=
  match exec s with
  | .ok d => affectedOf d
  | .error _ => 0

/-- The sequential loop of `handleExecuteQuery`: send each statement in
order; on success accumulate the affected count and remember the result;
on failure record `(statement, message)` and `break` — later statements
are never sent. -/
def runBatchAux (exec : String → Except String QueryData) :
    List String → ℕ → Option (String × QueryData) → BatchOutcome
  | [], total, last => ⟨[], total, last, none⟩
  | s :: rest, total, last =>
    match exec s with
    | .error msg => ⟨[s], total, last, some (s, msg)⟩
    | .ok d =>
      let out := runBatchAux exec rest (total + affectedOf d) (some (s, d))
      { out with executed := s :: out.executed }

/-- `handleExecuteQuery` from the QueryExecutor component: split the
blob, report "No valid SQL statements found." when nothing remains, and
otherwise run the loop from an empty accumulator.  The per-statement
server round-trip is abstracted as `exec`. -/
def handleExecuteQuery (exec : String → Except String QueryData)
    (sqlQuery : String) : Except String BatchOutcome :=
  let statements := splitQueries sqlQuery
  if statements.isEmpty then .error "No valid SQL statements found."
  else .ok (runBatchAux exec statements 0 none)

/-! ### ResultProjector (src/server.js lines 94–100 and 212–224) -/

/-- `Number(bigint)`: the BigInt becomes an ordinary JS number.  The
conversion is modelled exactly (the spec accepts the double rounding
beyond 2^53, which changes the numeral, not the constructor). -/
def jsNumber (n : ℤ) : Value := .num (n : ℚ)

/-- The per-row BigInt pass of GET /api/data: every `bigint` cell is
replaced by `Number(cell)`, all other cells are kept. -/
def processRow (row : Row) : Row :=
  row.map (fun kv =>
    match kv.2 with
    | .bigint n => (kv.1, jsNumber n)
    | _ => kv)

/-- `processedData` of GET /api/data: the BigInt pass applied to every
fetched row. -/
def processedData (data : List Row) : List Row := data.map processRow

/-- The query branch of POST /api/query: the rows are sent back as
returned by the engine, plus the first row's key list as `columns`.
No BigInt pass happens here. -/
def queryResponseRows (rows : List Row) : List Row × List String :=
  (rows,
   match rows with
   | [] => []
   | r :: _ => r.map Prod.fst)

/-- Is this value still a Prisma BigInt? -/
def isBigintValue : Value → Bool
  | .bigint _ => true
  | _ => false

/-- An executor used to instantiate the batch theorems on a concrete
run: every statement reports one affected row except `"BAD"`, which the
server rejects with message `"boom"`. -/
def demoExec : String → Except String QueryData :=
  fun s => if s = "BAD" then .error "boom" else .ok (.rowCount 1)

/-! ## Theorems -/

/-- The format regex accepts exactly the non-empty all-word-character
strings. -/
theorem identRegexTest_iff (s : String) :
    identRegexTest s = true ↔ s ≠ "" ∧ ∀ c ∈ s.data, isWordChar c = true := by
  rw [identRegexTest, Bool.and_eq_true, Bool.not_eq_true', List.all_eq_true,
    List.isEmpty_eq_false]
  constructor
  · rintro ⟨h1, h2⟩
    exact ⟨fun hs => h1 (congrArg String.data hs), h2⟩
  · rintro ⟨h1, h2⟩
    exact ⟨fun hd => h1 (String.ext hd), h2⟩

/-- C2: identifier validation accepts a table or column name iff it is
non-empty and made of ASCII letters, digits, and underscores only;
`"users"` passes, `"users; DROP TABLE x"` and `"user name"` are
rejected as invalid identifiers. -/
theorem C2_identifier_validation :
    (∀ s : String,
      (sanitizeTableName s).isOk = true ↔ s ≠ "" ∧ ∀ c ∈ s.data, isWordChar c = true) ∧
    (∀ s : String,
      (sanitizeColumnName s).isOk = true ↔ s ≠ "" ∧ ∀ c ∈ s.data, isWordChar c = true) ∧
    sanitizeTableName "users" = .ok "users" ∧
    sanitizeTableName "users; DROP TABLE x" =
      .error "Invalid table name format: users; DROP TABLE x" ∧
    sanitizeColumnName "users; DROP TABLE x" =
      .error "Invalid column name: users; DROP TABLE x" ∧
    sanitizeColumnName "user name" = .error "Invalid column name: user name" := by
  refine ⟨fun s => ?_, fun s => ?_, by rfl, by rfl, by rfl, by rfl⟩ <;>
  · rw [← identRegexTest_iff]
    first
    | rw [sanitizeTableName]
    | rw [sanitizeColumnName]
    cases identRegexTest s <;> simp [Except.isOk, Except.toBool]

/-- C7: the classifier tags a statement MUTATING iff its trimmed,
uppercased text starts with one of the seven DDL/DML keywords; anything
else — SELECT included — is tagged QUERY. -/
theorem C7_classifier :
    (∀ q : String,
      classify q = .MUTATING ↔
        ∃ k ∈ mutatingKeywords, jsStartsWith (jsToUpper (jsTrim q)) k = true) ∧
    classify "select * from x" = .QUERY ∧
    classify "Insert into x values (1)" = .MUTATING := by
  refine ⟨fun q => ?_, by decide, by decide⟩
  have h : classify q = .MUTATING ↔ isExecute q = true := by
    rw [classify]
    cases h : isExecute q <;> simp [h]
  rw [h, isExecute]
  simp only [mutatingKeywords, List.mem_cons, List.not_mem_nil, or_false, Bool.or_eq_true]
  constructor
  · intro hor
    rcases hor with ((((((h1 | h1) | h1) | h1) | h1) | h1) | h1)
    exacts [⟨"CREATE", by simp, h1⟩, ⟨"ALTER", by simp, h1⟩, ⟨"DROP", by simp, h1⟩,
      ⟨"INSERT", by simp, h1⟩, ⟨"UPDATE", by simp, h1⟩, ⟨"DELETE", by simp, h1⟩,
      ⟨"TRUNCATE", by simp, h1⟩]
  · rintro ⟨k, hk, hs⟩
    rcases hk with rfl | rfl | rfl | rfl | rfl | rfl | rfl <;> tauto

/-- C8: the semicolon inside the quoted literal of
`INSERT INTO t (s) VALUES ('a;b');` does not split the blob — splitting
it yields exactly one statement. -/
theorem C8_quoted_semicolon_one_statement :
    splitQueries "INSERT INTO t (s) VALUES ('a;b');" =
      ["INSERT INTO t (s) VALUES ('a;b')"] := by
  decide

/-- C1 (failing input): the blob `SELECT 'a'; SELECT 'b';` holds two
semicolon-terminated, non-empty statements with no semicolon inside a
quoted literal, yet `splitQueries` returns a single merged statement:
the regex's lookahead vetoes any split that is followed by a quote
character anywhere later in the blob, contradicting the source's own
comment that only semicolons inside single quotes are protected. -/
theorem C1_split_misses_boundary_before_quote :
    splitQueries "SELECT 'a'; SELECT 'b';" = ["SELECT 'a'; SELECT 'b'"] ∧
    (splitQueries "SELECT 'a'; SELECT 'b';").length ≠ 2 := by
  refine ⟨by decide, by decide⟩

/-- Reading a column other than the one `SET` wrote is unaffected. -/
theorem getCol_setCol_ne (r : Row) (k c : String) (v : Value) (hc : c ≠ k) :
    getCol (setCol r k v) c = getCol r c := by
  induction r with
  | nil => rfl
  | cons kv rest ih =>
    simp only [setCol, List.map_cons] at *
    by_cases h1 : kv.1 = k
    · have h2 : ¬ (kv.1 = c) := fun h => hc (h ▸ h1)
      simp only [getCol, List.find?_cons, if_pos h1]
      rw [show (decide ((kv.1, v).1 = c)) = false from decide_eq_false h2]
      simpa [getCol] using ih
    · simp only [getCol, List.find?_cons, if_neg h1]
      cases h2 : decide (kv.1 = c) with
      | true => rfl
      | false => simpa [getCol] using ih

/-- C10: when the update body holds several entries the handler applies
only the first one — every other column of the matched rows keeps its
value, unmatched rows are untouched, and the remaining entries are
ignored (the resulting table does not depend on them); an empty body
makes the handler fail before any SQL runs, leaving the table as it
was. -/
theorem C10_update_first_entry_only
    (tableName : String) (table : List Row) (id : ℤ) (k : String) (v : Value)
    (rest : List (String × Value))
    (hTab : identRegexTest tableName = true) (hCol : identRegexTest k = true) :
    (putHandler tableName table id ((k, v) :: rest)).1 =
      table.map (fun r => if pkMatches r "ID" id then setCol r k v else r) ∧
    (∀ r : Row, ∀ c : String, c ≠ k → getCol (setCol r k v) c = getCol r c) ∧
    (putHandler tableName table id []).1 = table ∧
    (putHandler tableName table id []).2 =
      .error "Failed to update cell: updateData has no entries" := by
  have hT : sanitizeTableName tableName = .ok tableName := by
    simp [sanitizeTableName, hTab]
  have hC : sanitizeColumnName k = .ok k := by
    simp [sanitizeColumnName, hCol]
  refine ⟨?_, fun r c hcc => getCol_setCol_ne r k c v hcc, ?_, ?_⟩ <;>
    simp [putHandler, hT, hC, getPrimaryKey]

/-- Witness for C10 on a one-row table: the body
`{name: "Zed", age: 9}` updates only `name`. -/
theorem C10_update_first_entry_only_witness :
    (putHandler "users" [[("ID", Value.bigint 1), ("name", Value.str "Bob"), ("age", Value.num 3)]]
        1 [("name", Value.str "Zed"), ("age", Value.num 9)]).1 =
      [[("ID", Value.bigint 1), ("name", Value.str "Bob"), ("age", Value.num 3)]].map
        (fun r => if pkMatches r "ID" 1 then setCol r "name" (Value.str "Zed") else r) ∧
    (∀ r : Row, ∀ c : String, c ≠ "name" →
      getCol (setCol r "name" (Value.str "Zed")) c = getCol r c) ∧
    (putHandler "users" [[("ID", Value.bigint 1), ("name", Value.str "Bob"), ("age", Value.num 3)]]
        1 []).1 = [[("ID", Value.bigint 1), ("name", Value.str "Bob"), ("age", Value.num 3)]] ∧
    (putHandler "users" [[("ID", Value.bigint 1), ("name", Value.str "Bob"), ("age", Value.num 3)]]
        1 []).2 = .error "Failed to update cell: updateData has no entries" :=
  C10_update_first_entry_only "users"
    [[("ID", Value.bigint 1), ("name", Value.str "Bob"), ("age", Value.num 3)]] 1 "name"
    (Value.str "Zed") [("age", Value.num 9)] (by decide) (by decide)

/-- C4 (counterexample): on a table whose only row has primary key 1,
updating row id 5 responds 200 with the empty object and deleting row
id 5 responds 204 — both succeed, neither fails with RowNotFound. -/
theorem C4_missing_id_counterexample :
    ([[("ID", Value.bigint 1), ("name", Value.str "Bob")]].all
      (fun r => !(pkMatches r "ID" 5))) = true ∧
    (putHandler "users" [[("ID", Value.bigint 1), ("name", Value.str "Bob")]] 5
      [("name", Value.str "x")]).2 = .ok [] ∧
    (deleteHandler "users" [[("ID", Value.bigint 1), ("name", Value.str "Bob")]] 5).2 =
      .ok () := by
  refine ⟨by decide, by rfl, by rfl⟩

/-- C4 (amended): when no row of the table has the requested id as its
primary key, the single-field update succeeds, returning the empty
object and leaving the table unchanged, and the delete succeeds,
also leaving the table unchanged; no RowNotFound failure exists. -/
theorem C4_missing_id_succeeds (tableName : String) (table : List Row) (id : ℤ)
    (k : String) (v : Value) (rest : List (String × Value))
    (hTab : identRegexTest tableName = true) (hCol : identRegexTest k = true)
    (hNo : ∀ r ∈ table, pkMatches r "ID" id = false) :
    putHandler tableName table id ((k, v) :: rest) = (table, .ok []) ∧
    deleteHandler tableName table id = (table, .ok ()) := by
  have hT : sanitizeTableName tableName = .ok tableName := by
    simp [sanitizeTableName, hTab]
  have hC : sanitizeColumnName k = .ok k := by
    simp [sanitizeColumnName, hCol]
  have hmap : table.map (fun r => if pkMatches r "ID" id then setCol r k v else r) = table := by
    have h1 := List.map_congr_left (l := table)
      (f := fun r : Row => if pkMatches r "ID" id then setCol r k v else r)
      (g := fun r : Row => r) (fun r hr => by simp [hNo r hr])
    rw [h1, List.map_id']
  have hfil : table.filter (fun r => pkMatches r "ID" id) = [] := by
    rw [List.filter_eq_nil_iff]
    intro r hr
    rw [hNo r hr]
    exact Bool.false_ne_true
  have hkeep : table.filter (fun r => !(pkMatches r "ID" id)) = table := by
    rw [List.filter_eq_self]
    intro r hr
    rw [hNo r hr]
    rfl
  constructor
  · simp only [putHandler, hT, hC, getPrimaryKey, hmap, hfil]
    rfl
  · simp only [deleteHandler, hT, getPrimaryKey, hkeep]

/-- Witness for C4 (amended) at the counterexample's table and id. -/
theorem C4_missing_id_succeeds_witness :
    putHandler "users" [[("ID", Value.bigint 1), ("name", Value.str "Bob")]] 5
        [("name", Value.str "x")] =
      ([[("ID", Value.bigint 1), ("name", Value.str "Bob")]], .ok []) ∧
    deleteHandler "users" [[("ID", Value.bigint 1), ("name", Value.str "Bob")]] 5 =
      ([[("ID", Value.bigint 1), ("name", Value.str "Bob")]], .ok ()) :=
  C4_missing_id_succeeds "users" [[("ID", Value.bigint 1), ("name", Value.str "Bob")]] 5
    "name" (Value.str "x") [] (by decide) (by decide) (by decide)

/-- A loop over valid column names collects exactly the key list and the
value list, in order. -/
theorem insertLoop_ok (l : List (String × Value))
    (h : ∀ kv ∈ l, identRegexTest kv.1 = true) :
    insertLoop l = .ok (l.map Prod.fst, l.map Prod.snd) := by
  induction l with
  | nil => rfl
  | cons kv rest ih =>
    obtain ⟨key, v⟩ := kv
    have hk : sanitizeColumnName key = .ok key := by
      simp [sanitizeColumnName, h (key, v) (List.mem_cons_self (key, v) rest)]
    have ht := ih (fun x hx => h x (List.mem_cons_of_mem _ hx))
    simp [insertLoop, hk, ht]

/-- C5 (counterexample): for the introspected schema
`{id: Int pk, active: Boolean, name: String}` — whose only
primary-key-flagged column is `"id"` — inserting
`{id: 7, active: true, name: "Ada"}` issues an INSERT whose column list
still contains `id` with the caller's value 7: the handler deletes only
the hardcoded property name `"ID"`, not the column the `isPrimaryKey`
flag names, and it forwards the values without any type coercion or
schema-membership check. -/
theorem C5_insert_keeps_pk_flagged_field :
    (([⟨"id", "Int", true⟩, ⟨"active", "Boolean", false⟩, ⟨"name", "String", false⟩] :
        List Column).filter (fun c => c.pk)).map (fun c => c.field) = ["id"] ∧
    postHandler "users"
        [("id", Value.num 7), ("active", Value.bool true), ("name", Value.str "Ada")] =
      .ok (["id", "active", "name"], [Value.num 7, Value.bool true, Value.str "Ada"]) := by
  refine ⟨by decide, by rfl⟩

/-- C5 (amended): the insert handler drops exactly the fields named
`"ID"` (the hardcoded primary-key name); every remaining field — whether
or not it is in the table's schema — is forwarded uncoerced, in order,
as the INSERT's column list and bound-parameter values. -/
theorem C5_insert_payload (tableName : String) (newData : List (String × Value))
    (hTab : identRegexTest tableName = true)
    (hCols : ∀ kv ∈ newData, kv.1 ≠ "ID" → identRegexTest kv.1 = true) :
    postHandler tableName newData =
      .ok ((newData.filter (fun kv => kv.1 ≠ "ID")).map Prod.fst,
        (newData.filter (fun kv => kv.1 ≠ "ID")).map Prod.snd) := by
  have hT : sanitizeTableName tableName = .ok tableName := by
    simp [sanitizeTableName, hTab]
  simp only [postHandler, hT, getPrimaryKey]
  apply insertLoop_ok
  intro kv hkv
  rw [List.mem_filter] at hkv
  exact hCols kv hkv.1 (of_decide_eq_true hkv.2)

/-- Witness for C5 (amended): a body carrying `"ID"`, a schema column
and a non-schema column. -/
theorem C5_insert_payload_witness :
    postHandler "users"
        [("ID", Value.num 9), ("active", Value.bool true), ("nosuch", Value.str "x")] =
      .ok (([("ID", Value.num 9), ("active", Value.bool true),
            ("nosuch", Value.str "x")].filter (fun kv => kv.1 ≠ "ID")).map Prod.fst,
        ([("ID", Value.num 9), ("active", Value.bool true),
            ("nosuch", Value.str "x")].filter (fun kv => kv.1 ≠ "ID")).map Prod.snd) :=
  C5_insert_payload "users"
    [("ID", Value.num 9), ("active", Value.bool true), ("nosuch", Value.str "x")]
    (by decide) (by decide)

/-- C6 (counterexample): the claim's truncation rule fails off the plain
decimal-notation range.  The raw value `"0.0000001"` parses to the
finite number 10^-7, whose truncation is 0; but the program computes
`parseInt(String(1e-7), 10) = parseInt("1e-7", 10) = 1` because
`String` renders magnitudes below 10^-6 in exponential notation — so the
coercion returns 1, not the truncation 0. -/
theorem C6_parseInt_roundtrip_counterexample :
    safeTypeConvert (some "0.0000001") "Int" = Value.num 1 ∧
    jsParseFloat "0.0000001" = some (mkRat 1 10000000) ∧
    (mkRat 1 10000000).num.tdiv (((mkRat 1 10000000).den : ℕ) : ℤ) = 0 ∧
    Value.num 1 ≠ Value.num 0 := by
  refine ⟨by decide, by decide, by decide, by decide⟩

/-- C6 (amended): the coercion rules in order — `null`, the empty
string, and any case-insensitive spelling of "null" give `null` whatever
the declared type; for a non-nullish value of an Int/Float/Decimal
(non-Boolean) declared type the result is `null` when the parse fails,
the parsed number for a non-integer family, and
`parseInt(String(x), 10)` for the integer family — which truncates
toward zero exactly when `x` stringifies in plain decimal notation
(`x = 0` or `10^-6 ≤ |x| < 10^21`) and otherwise yields only the signed
leading digit of the exponential form; integer-family output is always
integral; the four specified evaluations hold, and the two
exponential-notation evaluations show the non-truncating regime. -/
theorem C6_type_coercion_amended :
    (∀ ty : String, safeTypeConvert none ty = .null) ∧
    (∀ ty : String, safeTypeConvert (some "") ty = .null) ∧
    (∀ (ty v : String), jsToLower v = "null" → safeTypeConvert (some v) ty = .null) ∧
    (∀ (ty v : String), v ≠ "" → jsToLower v ≠ "null" →
      strIncludes ty "Boolean" = false →
      (strIncludes ty "Int" || strIncludes ty "Float" || strIncludes ty "Decimal") = true →
      safeTypeConvert (some v) ty =
        (match jsParseFloat v with
         | none => Value.null
         | some q =>
           if strIncludes ty "Int" then Value.num ((jsParseIntOfNumber q : ℤ) : ℚ)
           else Value.num q)) ∧
    (∀ q : ℚ, q ≠ 0 → (1 : ℚ) ≤ |q| * 10 ^ 6 → |q| < 10 ^ 21 →
      jsParseIntOfNumber q = q.num.tdiv ((q.den : ℕ) : ℤ)) ∧
    (∀ (ty v : String), strIncludes ty "Boolean" = false → strIncludes ty "Int" = true →
      safeTypeConvert (some v) ty = .null ∨
        ∃ n : ℤ, safeTypeConvert (some v) ty = .num (n : ℚ)) ∧
    safeTypeConvert (some "true") "Boolean" = .bool true ∧
    safeTypeConvert (some "0") "Int" = .num 0 ∧
    safeTypeConvert (some "") "String" = .null ∧
    safeTypeConvert (some "abc") "Float" = .null ∧
    safeTypeConvert (some "0.0000001") "Int" = .num 1 ∧
    safeTypeConvert (some "25e21") "Int" = .num 2 := by
  refine ⟨fun ty => rfl, fun ty => by simp [safeTypeConvert], ?_, ?_, ?_, ?_, by decide,
    by decide, by decide, by decide, by decide, by decide⟩
  · intro ty v h
    simp [safeTypeConvert, h]
  · intro ty v h1 h2 h3 h4
    have hcond : (decide (v = "") || decide (jsToLower v = "null")) = false := by
      rw [decide_eq_false h1, decide_eq_false h2]
      rfl
    simp only [safeTypeConvert, hcond, Bool.false_eq_true, if_false, h3, h4, if_true]
  · intro q hq h1 h2
    have hd : (0 : ℚ) < ((q.den : ℕ) : ℚ) := by exact_mod_cast q.den_pos
    have habs : |q| = ((q.num.natAbs : ℕ) : ℚ) / ((q.den : ℕ) : ℚ) := by
      conv_lhs => rw [← Rat.num_div_den q]
      rw [abs_div, Nat.abs_cast, Int.cast_natAbs, Int.cast_abs]
    rw [habs, div_mul_eq_mul_div, le_div_iff₀ hd, one_mul] at h1
    rw [habs, div_lt_iff₀ hd] at h2
    have hc1 : q.den ≤ q.num.natAbs * 10 ^ 6 := by exact_mod_cast h1
    have hc2 : q.num.natAbs < q.den * 10 ^ 21 := by
      rw [mul_comm] at h2
      exact_mod_cast h2
    rw [jsParseIntOfNumber, if_neg hq, if_pos ⟨hc1, hc2⟩]
  · intro ty v hb hi
    by_cases h1 : v = ""
    · subst h1
      left
      simp [safeTypeConvert]
    · by_cases h2 : jsToLower v = "null"
      · left
        simp [safeTypeConvert, h2]
      · have hcond : (decide (v = "") || decide (jsToLower v = "null")) = false := by
          rw [decide_eq_false h1, decide_eq_false h2]
          rfl
        have hnum : (strIncludes ty "Int" || strIncludes ty "Float" ||
            strIncludes ty "Decimal") = true := by
          rw [hi]
          rfl
        simp only [safeTypeConvert, hcond, Bool.false_eq_true, if_false, hb, hnum, if_true, hi]
        cases hq : jsParseFloat v with
        | none => exact Or.inl rfl
        | some q => exact Or.inr ⟨jsParseIntOfNumber q, rfl⟩

/-- Witness for C6's conditional rules: the nullish rule at `"NULL"` of
type Int, the numeric rule at `"2.9"` of type Float, the plain-notation
truncation rule at 39/10, and integrality at `"7.5"`/`"BigInt"`. -/
theorem C6_type_coercion_amended_witness :
    safeTypeConvert (some "NULL") "Int" = Value.null ∧
    safeTypeConvert (some "2.9") "Float" =
      (match jsParseFloat "2.9" with
       | none => Value.null
       | some q =>
         if strIncludes "Float" "Int" then Value.num ((jsParseIntOfNumber q : ℤ) : ℚ)
         else Value.num q) ∧
    jsParseIntOfNumber (39 / 10 : ℚ) =
      (39 / 10 : ℚ).num.tdiv ((((39 / 10 : ℚ).den : ℕ)) : ℤ) ∧
    (safeTypeConvert (some "7.5") "BigInt" = .null ∨
      ∃ n : ℤ, safeTypeConvert (some "7.5") "BigInt" = .num (n : ℚ)) :=
  ⟨C6_type_coercion_amended.2.2.1 "Int" "NULL" (by decide),
   C6_type_coercion_amended.2.2.2.1 "Float" "2.9" (by decide) (by decide) (by decide)
     (by decide),
   C6_type_coercion_amended.2.2.2.2.1 (39 / 10 : ℚ) (by norm_num)
     (by rw [abs_of_pos (by norm_num : (0 : ℚ) < 39 / 10)]; norm_num)
     (by rw [abs_of_pos (by norm_num : (0 : ℚ) < 39 / 10)]; norm_num),
   C6_type_coercion_amended.2.2.2.2.2.1 "BigInt" "7.5" (by decide) (by decide)⟩

/-- The loop invariant behind C3: whenever the executor loop ends with a
failure recorded, the statement list splits as `pre ++ s :: post` where
every statement of `pre` succeeded, `s` is the one that failed with the
recorded message, exactly `pre ++ [s]` was sent (nothing of `post`), and
the row-count accumulator advanced by exactly the affected counts of
`pre`. -/
theorem runBatchAux_failure (exec : String → Except String QueryData) :
    ∀ (stmts : List String) (total : ℕ) (last : Option (String × QueryData))
      (s msg : String),
      (runBatchAux exec stmts total last).failure = some (s, msg) →
      ∃ pre post,
        stmts = pre ++ s :: post ∧
        (runBatchAux exec stmts total last).executed = pre ++ [s] ∧
        (∀ t ∈ pre, ∃ d, exec t = .ok d) ∧
        exec s = .error msg ∧
        (runBatchAux exec stmts total last).totalRowCount =
          total + (pre.map (execAffected exec)).sum := by
  intro stmts
  induction stmts with
  | nil =>
    intro total last s msg h
    simp [runBatchAux] at h
  | cons a rest ih =>
    intro total last s msg h
    cases hx : exec a with
    | error m =>
      simp only [runBatchAux, hx] at h ⊢
      obtain ⟨rfl, rfl⟩ : a = s ∧ m = msg := by
        have := Option.some.inj h
        exact ⟨congrArg Prod.fst this, congrArg Prod.snd this⟩
      exact ⟨[], rest, rfl, rfl, fun t ht => absurd ht (List.not_mem_nil t), hx, by simp⟩
    | ok d =>
      simp only [runBatchAux, hx] at h ⊢
      obtain ⟨pre, post, hsplit, hexec, hok, herr, htot⟩ :=
        ih (total + affectedOf d) (some (a, d)) s msg h
      refine ⟨a :: pre, post, by rw [List.cons_append, hsplit], ?_, ?_, herr, ?_⟩
      · rw [List.cons_append, hexec]
      · intro t ht
        rcases List.mem_cons.mp ht with rfl | ht'
        · exact ⟨d, hx⟩
        · exact hok t ht'
      · rw [htot, List.map_cons, List.sum_cons, execAffected, hx, Nat.add_assoc]

/-- C3: when a batch execution records a failure, the split statement
list decomposes around the failing statement: everything before it
succeeded and was sent, the failing statement and its error message are
the recorded pair, nothing after it was ever sent, and `totalRowCount`
is the sum of the affected counts of the statements that completed
before the failure. -/
theorem C3_batch_stops_at_first_failure
    (exec : String → Except String QueryData) (sqlQuery : String)
    (out : BatchOutcome) (s msg : String)
    (hrun : handleExecuteQuery exec sqlQuery = .ok out)
    (hfail : out.failure = some (s, msg)) :
    ∃ pre post,
      splitQueries sqlQuery = pre ++ s :: post ∧
      out.executed = pre ++ [s] ∧
      (∀ t ∈ pre, ∃ d, exec t = .ok d) ∧
      exec s = .error msg ∧
      out.totalRowCount = (pre.map (execAffected exec)).sum := by
  rw [handleExecuteQuery] at hrun
  by_cases he : (splitQueries sqlQuery).isEmpty
  · simp [he] at hrun
  · simp only [he, Bool.false_eq_true, if_false] at hrun
    obtain rfl : runBatchAux exec (splitQueries sqlQuery) 0 none = out := Except.ok.inj hrun
    obtain ⟨pre, post, h1, h2, h3, h4, h5⟩ :=
      runBatchAux_failure exec (splitQueries sqlQuery) 0 none s msg hfail
    exact ⟨pre, post, h1, h2, h3, h4, by rw [h5, Nat.zero_add]⟩

/-- Witness for C3: running `"A; BAD; C"` against an executor that
rejects `"BAD"` stops after `"BAD"` with total 1 from the first
statement. -/
theorem C3_batch_witness :
    ∃ pre post,
      splitQueries "A; BAD; C" = pre ++ "BAD" :: post ∧
      (⟨["A", "BAD"], 1, some ("A", QueryData.rowCount 1), some ("BAD", "boom")⟩ :
          BatchOutcome).executed = pre ++ ["BAD"] ∧
      (∀ t ∈ pre, ∃ d, demoExec t = .ok d) ∧
      demoExec "BAD" = .error "boom" ∧
      (⟨["A", "BAD"], 1, some ("A", QueryData.rowCount 1), some ("BAD", "boom")⟩ :
          BatchOutcome).totalRowCount = (pre.map (execAffected demoExec)).sum :=
  C3_batch_stops_at_first_failure demoExec "A; BAD; C"
    ⟨["A", "BAD"], 1, some ("A", QueryData.rowCount 1), some ("BAD", "boom")⟩
    "BAD" "boom" (by rfl) (by rfl)

/-- C9 (counterexample): a 64-bit-wide integer (2^60 + 1, well beyond
the 2^53 safe range) fetched by the ad-hoc query endpoint is sent to the
presentation boundary still as a BigInt — the query branch performs no
narrowing, unlike the table-fetch branch. -/
theorem C9_query_rows_keep_bigint :
    ((2 : ℤ) ^ 53 < 2 ^ 60 + 1) ∧
    (queryResponseRows [[("n", Value.bigint (2 ^ 60 + 1))]]).1 =
      [[("n", Value.bigint (2 ^ 60 + 1))]] ∧
    isBigintValue (Value.bigint ((2 : ℤ) ^ 60 + 1)) = true := by
  refine ⟨by decide, by rfl, by rfl⟩

/-- No cell of a processed row is still a BigInt. -/
theorem processRow_no_bigint (r : Row) : ∀ kv ∈ processRow r, isBigintValue kv.2 = false := by
  intro kv hkv
  rw [processRow, List.mem_map] at hkv
  obtain ⟨⟨k, v⟩, hm, heq⟩ := hkv
  subst heq
  cases v <;> rfl

/-- C9 (amended): the table-fetch response narrows every BigInt cell to
an ordinary number before it crosses the presentation boundary, while
the ad-hoc query response returns the engine's rows unchanged, without
any BigInt narrowing. -/
theorem C9_narrowing_table_fetch_only (data : List Row) :
    (∀ r ∈ processedData data, ∀ kv ∈ r, isBigintValue kv.2 = false) ∧
    (queryResponseRows data).1 = data := by
  refine ⟨?_, rfl⟩
  intro r hr
  rw [processedData, List.mem_map] at hr
  obtain ⟨r', _, rfl⟩ := hr
  exact processRow_no_bigint r'

/-- Witness for C9 (amended) on a row carrying a wide BigInt. -/
theorem C9_narrowing_witness :
    (∀ r ∈ processedData [[("n", Value.bigint (2 ^ 60 + 1))]],
      ∀ kv ∈ r, isBigintValue kv.2 = false) ∧
    (queryResponseRows [[("n", Value.bigint (2 ^ 60 + 1))]]).1 =
      [[("n", Value.bigint (2 ^ 60 + 1))]] :=
  C9_narrowing_table_fetch_only [[("n", Value.bigint (2 ^ 60 + 1))]]

end LiveDbEditor
